import Mathlib

/-!
Verification development for the gumshoe S3 PII inspector
(src/gumshoe.py).  The Python source is shallowly embedded:

* Python str values are modelled as `List Nat` of Unicode scalar
  values (Python indexes and slices strings by code point), except for
  identifiers (bucket names, object keys, PII category names), which
  are modelled as Lean `String`.
* Raw S3 object bytes are `List Nat` (each entry a byte value).
* The boto3 S3 and Comprehend clients are modelled as explicit
  function parameters (the listing response, a fetch function and a
  classify function), and every remote call the code makes is recorded
  in an explicit trace together with every line it prints.
* `random.sample(pop, k)` (requires k less or equal len(pop); returns k
  distinct positions of pop, in an order driven by the PRNG) is
  modelled by `randomSample`, which draws positions without
  replacement as directed by an explicit seed oracle; every output the
  real PRNG can produce is reachable by some seed.
-/

namespace Gumshoe

/-- A single Comprehend PII label: an entry of the Labels list of the
response, a dict with a Name and a Score.  The score is only carried
around and printed, never computed with, so it is modelled as a
rational. -/
structure Label where
  Name : String
  Score : ℚ
deriving DecidableEq

/-- The response of comprehend.contains_pii_entities, a dict that may
or may not contain the key Labels (gumshoe.py line 83 tests for the
key). -/
structure ComprehendResponse where
  labels : Option (List Label)
deriving DecidableEq

/-- gumshoe.py lines 11-18: the list of PII types that are not
reported on. -/
def IGNORE_TYPES : List String :=
  ["DATE_TIME", "DATE", "TIME", "IP_ADDRESS", "MAC_ADDRESS", "URL"]

/-- The list comprehension of gumshoe.py line 86, with the ignore list
as a parameter: keep the labels whose Name is not in the ignore
list. -/
def filterFindings (labels : List Label) (ignore : List String) : List Label :=
  labels.filter (fun l => !(ignore.contains l.Name))

/-- gumshoe.py lines 79-88, process_pii_entities: if the response has
a Labels key, filter it against IGNORE_TYPES; otherwise return None.
The object_name parameter of the Python method is unused by its
body. -/
def process_pii_entities (resp : ComprehendResponse) (object_name : String) :
    Option (List Label) :=
  match resp.labels with
  | some labels => some (filterFindings labels IGNORE_TYPES)
  | none => none

theorem mem_filterFindings (labels : List Label) (ignore : List String)
    (l : Label) :
    l ∈ filterFindings labels ignore ↔ l ∈ labels ∧ l.Name ∉ ignore := by
  simp [filterFindings, List.mem_filter]

/-- Claim C5: for every list of classifier findings, the findings
filter returns exactly the subsequence of findings whose category is
not in the ignore set, preserving the relative order of the classifier
response (a sublist), where the ignore set is exactly DATE_TIME, DATE,
TIME, IP_ADDRESS, MAC_ADDRESS, URL. -/
theorem c5_filter_is_subsequence_on_ignore_set (findings : List Label)
    (object_name : String) :
    process_pii_entities ⟨some findings⟩ object_name
        = some (filterFindings findings IGNORE_TYPES)
      ∧ List.Sublist (filterFindings findings IGNORE_TYPES) findings
      ∧ (∀ l : Label, l ∈ filterFindings findings IGNORE_TYPES ↔
          l ∈ findings ∧
            l.Name ∉ ["DATE_TIME", "DATE", "TIME", "IP_ADDRESS",
              "MAC_ADDRESS", "URL"])
      ∧ IGNORE_TYPES
          = ["DATE_TIME", "DATE", "TIME", "IP_ADDRESS", "MAC_ADDRESS",
             "URL"] := by
  refine ⟨rfl, List.filter_sublist findings, ?_, rfl⟩
  intro l
  exact mem_filterFindings findings IGNORE_TYPES l

/-- Claim C6: the findings filter is idempotent, and filtering against
the empty ignore set is the identity. -/
theorem c6_filter_idempotent_and_empty_identity (findings : List Label)
    (ignore : List String) :
    filterFindings (filterFindings findings ignore) ignore
        = filterFindings findings ignore
      ∧ filterFindings findings [] = findings := by
  constructor
  · simp [filterFindings, List.filter_filter]
  · simp [filterFindings]

/-- A Unicode scalar value: a code point outside the surrogate range.
Python str values produced by utf-8 decoding consist of these. -/
def isScalar (c : Nat) : Prop :=
  c < 55296 ∨ (57344 ≤ c ∧ c < 1114112)

instance (c : Nat) : Decidable (isScalar c) := by
  unfold isScalar; infer_instance

/-- Lower bound for the first continuation byte of a three-byte
sequence: lead 0xE0 requires 0xA0 or more (rejecting overlong
forms). -/
def cont3lo (b : Nat) : Nat := if b = 224 then 160 else 128

/-- Upper bound for the first continuation byte of a three-byte
sequence: lead 0xED requires 0x9F or less (rejecting surrogates). -/
def cont3hi (b : Nat) : Nat := if b = 237 then 159 else 191

/-- Lower bound for the first continuation byte of a four-byte
sequence: lead 0xF0 requires 0x90 or more (rejecting overlong
forms). -/
def cont4lo (b : Nat) : Nat := if b = 240 then 144 else 128

/-- Upper bound for the first continuation byte of a four-byte
sequence: lead 0xF4 requires 0x8F or less (rejecting code points
above 0x10FFFF). -/
def cont4hi (b : Nat) : Nat := if b = 244 then 143 else 191

/-- One step of the CPython utf-8 codec used by bytes.decode on
gumshoe.py lines 58 and 61: decode the first scalar value from the
byte list, returning it and the remaining bytes, or none if the input
starts with an ill-formed sequence (bad lead byte, bad continuation
byte, truncated sequence, overlong form, surrogate, or code point
above 0x10FFFF -- CPython rejects all of these). -/
def decodeOne : List Nat → Option (Nat × List Nat)
  | [] => none
  | b :: bs =>
    if b < 128 then some (b, bs)
    else if 194 ≤ b ∧ b ≤ 223 then
      match bs with
      | b1 :: bs1 =>
        if 128 ≤ b1 ∧ b1 ≤ 191 then
          some ((b - 192) * 64 + (b1 - 128), bs1)
        else none
      | [] => none
    else if 224 ≤ b ∧ b ≤ 239 then
      match bs with
      | b1 :: b2 :: bs2 =>
        if cont3lo b ≤ b1 ∧ b1 ≤ cont3hi b ∧ 128 ≤ b2 ∧ b2 ≤ 191 then
          some ((b - 224) * 4096 + (b1 - 128) * 64 + (b2 - 128), bs2)
        else none
      | [_] => none
      | [] => none
    else if 240 ≤ b ∧ b ≤ 244 then
      match bs with
      | b1 :: b2 :: b3 :: bs3 =>
        if cont4lo b ≤ b1 ∧ b1 ≤ cont4hi b ∧
            128 ≤ b2 ∧ b2 ≤ 191 ∧ 128 ≤ b3 ∧ b3 ≤ 191 then
          some ((b - 240) * 262144 + (b1 - 128) * 4096 +
            (b2 - 128) * 64 + (b3 - 128), bs3)
        else none
      | [_, _] => none
      | [_] => none
      | [] => none
    else none

/-- The utf-8 encoding of one scalar value, as the boto3 transport
applies to each character of the Text parameter when serialising the
Comprehend request. -/
def utf8EncodeChar (c : Nat) : List Nat :=
  if c < 128 then [c]
  else if c < 2048 then [192 + c / 64, 128 + c % 64]
  else if c < 65536 then [224 + c / 4096, 128 + c / 64 % 64, 128 + c % 64]
  else [240 + c / 262144, 128 + c / 4096 % 64, 128 + c / 64 % 64,
    128 + c % 64]

/-- The utf-8 encoding of a Python str (modelled as its list of scalar
values): the byte payload its network serialisation occupies. -/
def utf8Encode (cs : List Nat) : List Nat :=
  (cs.map utf8EncodeChar).flatten

theorem utf8Encode_nil : utf8Encode [] = [] := rfl

theorem utf8Encode_cons (c : Nat) (cs : List Nat) :
    utf8Encode (c :: cs) = utf8EncodeChar c ++ utf8Encode cs := rfl

theorem encTwo (b b1 : Nat) (hb1 : 194 ≤ b) (hb2 : b ≤ 223)
    (hc1 : 128 ≤ b1) (hc2 : b1 ≤ 191) :
    utf8EncodeChar ((b - 192) * 64 + (b1 - 128)) = [b, b1]
      ∧ isScalar ((b - 192) * 64 + (b1 - 128)) := by
  constructor
  · unfold utf8EncodeChar
    split_ifs <;> simp only [List.cons.injEq, and_true] <;> omega
  · unfold isScalar; omega

theorem encThree (b b1 b2 : Nat) (hb1 : 224 ≤ b) (hb2 : b ≤ 239)
    (hlo : b = 224 → 160 ≤ b1) (hsur : b = 237 → b1 ≤ 159)
    (hc1 : 128 ≤ b1) (hc2 : b1 ≤ 191) (hd1 : 128 ≤ b2) (hd2 : b2 ≤ 191) :
    utf8EncodeChar ((b - 224) * 4096 + (b1 - 128) * 64 + (b2 - 128))
        = [b, b1, b2]
      ∧ isScalar ((b - 224) * 4096 + (b1 - 128) * 64 + (b2 - 128)) := by
  constructor
  · unfold utf8EncodeChar
    split_ifs <;> simp only [List.cons.injEq, and_true] <;> omega
  · unfold isScalar; omega

theorem encFour (b b1 b2 b3 : Nat) (hb1 : 240 ≤ b) (hb2 : b ≤ 244)
    (hlo : b = 240 → 144 ≤ b1) (hhi : b = 244 → b1 ≤ 143)
    (hc1 : 128 ≤ b1) (hc2 : b1 ≤ 191) (hd1 : 128 ≤ b2) (hd2 : b2 ≤ 191)
    (he1 : 128 ≤ b3) (he2 : b3 ≤ 191) :
    utf8EncodeChar ((b - 240) * 262144 + (b1 - 128) * 4096 +
          (b2 - 128) * 64 + (b3 - 128))
        = [b, b1, b2, b3]
      ∧ isScalar ((b - 240) * 262144 + (b1 - 128) * 4096 +
          (b2 - 128) * 64 + (b3 - 128)) := by
  constructor
  · unfold utf8EncodeChar
    split_ifs <;> simp only [List.cons.injEq, and_true] <;> omega
  · unfold isScalar; omega

theorem decodeOne_sound {bs : List Nat} {c : Nat} {rest : List Nat}
    (h : decodeOne bs = some (c, rest)) :
    utf8EncodeChar c ++ rest = bs ∧ isScalar c
      ∧ rest.length < bs.length := by
  match bs with
  | [] => simp [decodeOne] at h
  | b :: bs =>
    simp only [decodeOne] at h
    split at h
    · -- ascii byte
      rename_i hlt
      simp only [Option.some.injEq, Prod.mk.injEq] at h
      obtain ⟨hc, hr⟩ := h
      subst hc; subst hr
      refine ⟨?_, by unfold isScalar; omega, by simp⟩
      unfold utf8EncodeChar
      rw [if_pos hlt]
      rfl
    · split at h
      · -- two-byte lead
        split at h
        · -- at least one more byte available
          split at h
          · -- continuation byte valid
            rename_i hlt hlead bsc b1 bs1 hcont
            simp only [Option.some.injEq, Prod.mk.injEq] at h
            obtain ⟨hc, hr⟩ := h
            subst hc; subst hr
            obtain ⟨henc, hscalar⟩ :=
              encTwo b b1 hlead.1 hlead.2 hcont.1 hcont.2
            refine ⟨?_, hscalar, by simp only [List.length_cons]; omega⟩
            rw [henc]; rfl
          · exact absurd h (by simp)
        · exact absurd h (by simp)
      · split at h
        · -- three-byte lead
          split at h
          · -- at least two more bytes available
            split at h
            · -- continuation bytes valid
              rename_i hlt hnot2 hlead bsc b1 b2 bs2 hcont
              simp only [Option.some.injEq, Prod.mk.injEq] at h
              obtain ⟨hc, hr⟩ := h
              subst hc; subst hr
              have h1lo : 128 ≤ b1 := by
                have hx := hcont.1
                by_cases hb : b = 224 <;> simp [cont3lo, hb] at hx <;> omega
              have h1hi : b1 ≤ 191 := by
                have hx := hcont.2.1
                by_cases hb : b = 237 <;> simp [cont3hi, hb] at hx <;> omega
              have hovl : b = 224 → 160 ≤ b1 := by
                intro hb; have hx := hcont.1; simpa [cont3lo, hb] using hx
              have hsur : b = 237 → b1 ≤ 159 := by
                intro hb; have hx := hcont.2.1; simpa [cont3hi, hb] using hx
              obtain ⟨henc, hscalar⟩ :=
                encThree b b1 b2 hlead.1 hlead.2 hovl hsur h1lo h1hi
                  hcont.2.2.1 hcont.2.2.2
              refine ⟨?_, hscalar, by simp only [List.length_cons]; omega⟩
              rw [henc]; rfl
            · exact absurd h (by simp)
          · exact absurd h (by simp)
          · exact absurd h (by simp)
        · split at h
          · -- four-byte lead
            split at h
            · -- at least three more bytes available
              split at h
              · -- continuation bytes valid
                rename_i hlt hnot2 hnot3 hlead bsc b1 b2 b3 bs3 hcont
                simp only [Option.some.injEq, Prod.mk.injEq] at h
                obtain ⟨hc, hr⟩ := h
                subst hc; subst hr
                have h1lo : 128 ≤ b1 := by
                  have hx := hcont.1
                  by_cases hb : b = 240 <;> simp [cont4lo, hb] at hx <;>
                    omega
                have h1hi : b1 ≤ 191 := by
                  have hx := hcont.2.1
                  by_cases hb : b = 244 <;> simp [cont4hi, hb] at hx <;>
                    omega
                have hovl : b = 240 → 144 ≤ b1 := by
                  intro hb; have hx := hcont.1; simpa [cont4lo, hb] using hx
                have hhi4 : b = 244 → b1 ≤ 143 := by
                  intro hb; have hx := hcont.2.1; simpa [cont4hi, hb] using hx
                obtain ⟨henc, hscalar⟩ :=
                  encFour b b1 b2 b3 hlead.1 hlead.2 hovl hhi4 h1lo h1hi
                    hcont.2.2.1 hcont.2.2.2.1 hcont.2.2.2.2.1
                    hcont.2.2.2.2.2
                refine ⟨?_, hscalar, by simp only [List.length_cons]; omega⟩
                rw [henc]; rfl
              · exact absurd h (by simp)
            · exact absurd h (by simp)
            · exact absurd h (by simp)
            · exact absurd h (by simp)
          · exact absurd h (by simp)

/-- The strict utf-8 decode of gumshoe.py line 58
(content.decode with utf-8): some list of scalar values, or none when
any ill-formed sequence is met (Python raises UnicodeDecodeError).
Driven by a fuel argument for structural recursion; since decodeOne
always consumes at least one byte, fuel equal to the input length
never runs out. -/
def decodeStrictF : Nat → List Nat → Option (List Nat)
  | _, [] => some []
  | 0, _ :: _ => none
  | fuel + 1, b :: bs =>
    match decodeOne (b :: bs) with
    | some (c, rest) => (decodeStrictF fuel rest).map (fun cs => c :: cs)
    | none => none

def utf8DecodeStrict (bs : List Nat) : Option (List Nat) :=
  decodeStrictF bs.length bs

/-- The permissive utf-8 decode of gumshoe.py line 61
(content.decode with utf-8 and errors=ignore): ill-formed byte
sequences are dropped and decoding continues.  Skipping one byte on
error and retrying matches CPython output: every byte CPython groups
into one error range beyond the first is a continuation byte, which is
itself skipped as an invalid lead on the retry. -/
def decodeIgnoreF : Nat → List Nat → List Nat
  | _, [] => []
  | 0, _ :: _ => []
  | fuel + 1, b :: bs =>
    match decodeOne (b :: bs) with
    | some (c, rest) => c :: decodeIgnoreF fuel rest
    | none => decodeIgnoreF fuel bs

def utf8DecodeIgnore (bs : List Nat) : List Nat :=
  decodeIgnoreF bs.length bs

/-- gumshoe.py lines 50-62, read_s3_object_content, applied to the
bytes fetched from S3: try strict utf-8 first and fall back to
utf-8 with errors=ignore on UnicodeDecodeError. -/
def read_s3_object_content (content : List Nat) : List Nat :=
  match utf8DecodeStrict content with
  | some s => s
  | none => utf8DecodeIgnore content

theorem decodeStrictF_sound :
    ∀ (fuel : Nat) (bs cs : List Nat), bs.length ≤ fuel →
      decodeStrictF fuel bs = some cs →
      utf8Encode cs = bs ∧ ∀ c ∈ cs, isScalar c := by
  intro fuel
  induction fuel with
  | zero =>
    intro bs cs hle h
    match bs with
    | [] =>
      simp only [decodeStrictF, Option.some.injEq] at h
      subst h
      exact ⟨rfl, by simp⟩
    | b :: bs => simp at hle
  | succ n ih =>
    intro bs cs hle h
    match bs with
    | [] =>
      simp only [decodeStrictF, Option.some.injEq] at h
      subst h
      exact ⟨rfl, by simp⟩
    | b :: bs =>
      simp only [decodeStrictF] at h
      cases hd : decodeOne (b :: bs) with
      | none => rw [hd] at h; simp at h
      | some p =>
        obtain ⟨c, rest⟩ := p
        rw [hd] at h
        simp only [Option.map_eq_some'] at h
        obtain ⟨cs0, hdec, hcs⟩ := h
        subst hcs
        obtain ⟨henc, hscalar, hlen⟩ := decodeOne_sound hd
        have hle0 : rest.length ≤ n := by
          simp only [List.length_cons] at hlen hle
          omega
        obtain ⟨hencrest, hscalars⟩ := ih rest cs0 hle0 hdec
        refine ⟨?_, ?_⟩
        · rw [utf8Encode_cons, hencrest, henc]
        · intro x hx
          rcases List.mem_cons.mp hx with hx | hx
          · subst hx; exact hscalar
          · exact hscalars x hx

theorem decodeIgnoreF_scalar :
    ∀ (fuel : Nat) (bs : List Nat), bs.length ≤ fuel →
      ∀ c ∈ decodeIgnoreF fuel bs, isScalar c := by
  intro fuel
  induction fuel with
  | zero =>
    intro bs hle c hc
    match bs with
    | [] => simp [decodeIgnoreF] at hc
    | b :: bs => simp at hle
  | succ n ih =>
    intro bs hle c hc
    match bs with
    | [] => simp [decodeIgnoreF] at hc
    | b :: bs =>
      simp only [decodeIgnoreF] at hc
      cases hd : decodeOne (b :: bs) with
      | none =>
        rw [hd] at hc
        exact ih bs (by simp only [List.length_cons] at hle; omega) c hc
      | some p =>
        obtain ⟨c0, rest⟩ := p
        rw [hd] at hc
        obtain ⟨henc, hscalar, hlen⟩ := decodeOne_sound hd
        rcases List.mem_cons.mp hc with hx | hx
        · subst hx; exact hscalar
        · exact ih rest
            (by simp only [List.length_cons] at hlen hle; omega) c hx

/-- Claim C4: for every byte input (including the empty one) the
content decoder returns a text result (a list of Unicode scalar
values -- it never raises), the empty input yields empty text, and
when the bytes are valid utf-8 the decode is lossless: re-encoding
the returned text gives back exactly the input bytes. -/
theorem c4_decoder_total_and_lossless (bs : List Nat) :
    (∀ c ∈ read_s3_object_content bs, isScalar c)
      ∧ read_s3_object_content [] = []
      ∧ ∀ cs, utf8DecodeStrict bs = some cs →
          read_s3_object_content bs = cs
            ∧ utf8Encode (read_s3_object_content bs) = bs := by
  refine ⟨?_, rfl, ?_⟩
  · intro c hc
    unfold read_s3_object_content at hc
    cases hd : utf8DecodeStrict bs with
    | some s =>
      rw [hd] at hc
      exact (decodeStrictF_sound bs.length bs s le_rfl hd).2 c hc
    | none =>
      rw [hd] at hc
      exact decodeIgnoreF_scalar bs.length bs le_rfl c hc
  · intro cs hd
    have hread : read_s3_object_content bs = cs := by
      unfold read_s3_object_content
      rw [hd]
    refine ⟨hread, ?_⟩
    rw [hread]
    exact (decodeStrictF_sound bs.length bs cs le_rfl hd).1

/-- Witness for C4 at a concrete input: the bytes of a two-character
string (h followed by e-acute) decode strictly and re-encode to the
same bytes. -/
theorem c4_decoder_total_and_lossless_witness :
    utf8Encode (read_s3_object_content [104, 195, 169]) = [104, 195, 169] :=
  ((c4_decoder_total_and_lossless [104, 195, 169]).2.2 [104, 233]
    (by rfl)).2

/-- One line printed by the inspector, one constructor per print
statement of gumshoe.py. -/
inductive OutputLine
  | inspecting (bucket : String)
  | emptyOrInaccessible (bucket : String)
  | checking (bucket object_name : String)
  | emptyContent (bucket object_name : String)
  | piiFound (bucket object_name : String)
  | finding (name : String) (score : ℚ)
  | previewHeader (n : Int) (bucket object_name : String)
  | previewLine (i : Nat) (line : List Nat)
  | ellipsis
  | blank
  | noPii (bucket object_name : String)
deriving DecidableEq

/-- Model of random.sample(pop, k) from gumshoe.py line 45: k draws
without replacement, each draw taking the element at a position chosen
by the pseudo-random source, here an explicit seed oracle (one entry
consumed per draw, reduced modulo the remaining population size).
Every output the library PRNG can produce is reachable by some seed,
so properties proved for all seeds cover the real sampler.  The
library raises ValueError when k exceeds the population size; the call
site always passes k at most the length, and on an over-long k this
model simply stops when the population is exhausted. -/
def randomSample {α : Type} : List α → Nat → List Nat → List α
  | _, 0, _ => []
  | [], _ + 1, _ => []
  | p :: ps, k + 1, seed =>
    let i := seed.headD 0 % (p :: ps).length
    (p :: ps).getD i p :: randomSample ((p :: ps).eraseIdx i) k seed.tail

/-- gumshoe.py lines 37-48, sample_s3_bucket_contents: the
list_objects_v2 response is modelled by its optional Contents key (the
list of object keys); when absent, a message is printed and the empty
list returned.  Note line 45 passes the literal 10 to min, not
self.sample_size. -/
def sample_s3_bucket_contents (listing : Option (List String))
    (bucket : String) (seed : List Nat) : List String × List OutputLine :=
  match listing with
  | some contents => (randomSample contents (min 10 contents.length) seed, [])
  | none => ([], [OutputLine.emptyOrInaccessible bucket])

theorem randomSample_length {α : Type} :
    ∀ (k : Nat) (pop : List α) (seed : List Nat), k ≤ pop.length →
      (randomSample pop k seed).length = k := by
  intro k
  induction k with
  | zero => intro pop seed h; cases pop <;> simp [randomSample]
  | succ n ih =>
    intro pop seed h
    match pop with
    | [] => simp at h
    | p :: ps =>
      have hi : seed.headD 0 % (ps.length + 1) < ps.length + 1 :=
        Nat.mod_lt _ (by omega)
      have hn : n ≤ ((p :: ps).eraseIdx
          (seed.headD 0 % (ps.length + 1))).length := by
        rw [List.length_eraseIdx_of_lt (by simpa using hi)]
        simp only [List.length_cons] at h ⊢
        omega
      simp only [randomSample, List.length_cons]
      rw [ih _ seed.tail hn]

theorem randomSample_subset {α : Type} :
    ∀ (k : Nat) (pop : List α) (seed : List Nat),
      ∀ x ∈ randomSample pop k seed, x ∈ pop := by
  intro k
  induction k with
  | zero => intro pop seed x hx; cases pop <;> simp [randomSample] at hx
  | succ n ih =>
    intro pop seed x hx
    match pop with
    | [] => simp [randomSample] at hx
    | p :: ps =>
      have hi : seed.headD 0 % (p :: ps).length < (p :: ps).length :=
        Nat.mod_lt _ (by simp)
      simp only [randomSample] at hx
      rcases List.mem_cons.mp hx with hx | hx
      · subst hx
        rw [List.getD_eq_getElem _ _ hi]
        exact List.getElem_mem hi
      · exact List.mem_of_mem_eraseIdx (ih _ seed.tail x hx)

theorem getD_not_mem_eraseIdx {α : Type} (d : α) :
    ∀ (l : List α) (i : Nat), i < l.length → l.Nodup →
      l.getD i d ∉ l.eraseIdx i := by
  intro l
  induction l with
  | nil => intro i hi; simp at hi
  | cons a t ih =>
    intro i hi hnd
    match i with
    | 0 =>
      simp only [List.getD_cons_zero, List.eraseIdx_cons_zero]
      exact (List.nodup_cons.mp hnd).1
    | j + 1 =>
      simp only [List.getD_cons_succ, List.eraseIdx_cons_succ]
      intro hmem
      rcases List.mem_cons.mp hmem with hx | hx
      · have hj : j < t.length := by simp at hi; omega
        have : t.getD j d ∈ t := by
          rw [List.getD_eq_getElem _ _ hj]
          exact List.getElem_mem hj
        rw [hx] at this
        exact (List.nodup_cons.mp hnd).1 this
      · have hj : j < t.length := by simp at hi; omega
        exact ih j hj (List.nodup_cons.mp hnd).2 hx

theorem randomSample_nodup {α : Type} :
    ∀ (k : Nat) (pop : List α) (seed : List Nat), pop.Nodup →
      (randomSample pop k seed).Nodup := by
  intro k
  induction k with
  | zero => intro pop seed h; cases pop <;> simp [randomSample]
  | succ n ih =>
    intro pop seed hnd
    match pop with
    | [] => simp [randomSample]
    | p :: ps =>
      have hi : seed.headD 0 % (p :: ps).length < (p :: ps).length :=
        Nat.mod_lt _ (by simp)
      simp only [randomSample, List.nodup_cons]
      constructor
      · intro hmem
        have hx := randomSample_subset n _ seed.tail _ hmem
        exact getD_not_mem_eraseIdx p (p :: ps) _ hi hnd hx
      · exact ih _ seed.tail
          (((p :: ps).eraseIdx_sublist _).nodup hnd)

/-- Claim C9: the sample is drawn without replacement -- every sampled
key is a key of the listing, and (keys being unique within a bucket
listing) the sample has no duplicate entries. -/
theorem c9_sample_without_replacement (keys : List String)
    (bucket : String) (seed : List Nat) (h : keys.Nodup) :
    (sample_s3_bucket_contents (some keys) bucket seed).1.Nodup
      ∧ ∀ k ∈ (sample_s3_bucket_contents (some keys) bucket seed).1,
          k ∈ keys := by
  constructor
  · exact randomSample_nodup _ keys seed h
  · exact randomSample_subset _ keys seed

/-- Witness for C9 at a concrete listing and seed. -/
theorem c9_sample_without_replacement_witness :
    (["a", "b", "c"] : List String).Nodup
      ∧ ((sample_s3_bucket_contents (some ["a", "b", "c"]) "bkt"
            [1, 0]).1.Nodup
          ∧ ∀ k ∈ (sample_s3_bucket_contents (some ["a", "b", "c"]) "bkt"
              [1, 0]).1, k ∈ ["a", "b", "c"]) :=
  ⟨by decide, c9_sample_without_replacement ["a", "b", "c"] "bkt" [1, 0]
    (by decide)⟩

/-- Claim C1 fails on the code: sample_s3_bucket_contents passes the
literal 10 to min (gumshoe.py line 45), never self.sample_size, so
with a configured sample size of 5 and a listing of 7 keys the sample
has length 7, not min 5 7 = 5.  This theorem evaluates the embedded
code at that failing input. -/
theorem c1_sample_size_ignored_failing_input :
    (sample_s3_bucket_contents
        (some ["k1", "k2", "k3", "k4", "k5", "k6", "k7"]) "bkt"
        [0, 0, 0, 0, 0, 0, 0]).1.length = 7
      ∧ min 5 7 ≠ 7 := by
  constructor
  · rfl
  · decide

/-- The line boundary characters recognised by Python str.splitlines:
LF, VT, FF, CR, FS, GS, RS, NEL, LINE SEPARATOR, PARAGRAPH
SEPARATOR. -/
def isLineBreak (c : Nat) : Bool :=
  c = 10 || c = 11 || c = 12 || c = 13 || c = 28 || c = 29 || c = 30 ||
    c = 133 || c = 8232 || c = 8233

def splitlinesAux : List Nat → List Nat → List (List Nat)
  | [], acc => if acc = [] then [] else [acc.reverse]
  | c :: rest, acc =>
    if c = 13 then
      match rest with
      | 10 :: rest2 => acc.reverse :: splitlinesAux rest2 []
      | c2 :: rest2 => acc.reverse :: splitlinesAux (c2 :: rest2) []
      | [] => acc.reverse :: splitlinesAux [] []
    else if isLineBreak c then acc.reverse :: splitlinesAux rest []
    else splitlinesAux rest (c :: acc)

/-- Python str.splitlines as called on gumshoe.py line 114: split at
any line boundary, with CR LF one boundary, and no trailing empty
line. -/
def splitlines (cs : List Nat) : List (List Nat) :=
  splitlinesAux cs []

/-- gumshoe.py lines 111-118: the preview block printed when filtered
findings are non-empty.  The header names self.display_lines, but the
slice on line 115 is content_lines with the literal bound 10, and the
ellipsis check on line 117 also uses the literal 10. -/
def previewOutput (display_lines : Int) (bucket_name object_name : String)
    (content_str : List Nat) : List OutputLine :=
  if display_lines > 0 then
    OutputLine.previewHeader display_lines bucket_name object_name ::
      ((splitlines content_str).take 10).enum.map
        (fun p => OutputLine.previewLine (p.1 + 1) p.2)
      ++ (if 10 < (splitlines content_str).length then [OutputLine.ellipsis]
          else [])
  else []

/-- gumshoe.py lines 64-76, check_for_pii_using_aws_comprehend.  The
Comprehend client is the classify parameter.  Returns the response (or
none on empty content), the list of payloads submitted to the remote
service, and the lines printed. -/
def check_for_pii_using_aws_comprehend
    (classify : List Nat → ComprehendResponse)
    (bucket_name object_name : String) (content_str : List Nat) :
    Option ComprehendResponse × List (List Nat) × List OutputLine :=
  if content_str = [] then
    (none, [], [OutputLine.emptyContent bucket_name object_name])
  else
    (some (classify (content_str.take 90000)), [content_str.take 90000], [])

/-- The external collaborators of one inspection run: the Contents key
of the single list_objects_v2 response, the S3 get_object body per
key, and the Comprehend contains_pii_entities response per payload. -/
structure Env where
  listing : Option (List String)
  fetch : String → List Nat
  classify : List Nat → ComprehendResponse

/-- Everything observable about a run: the keys fetched from S3, the
payloads submitted to Comprehend, and the lines printed, each in
order. -/
structure Trace where
  fetched : List String
  classified : List (List Nat)
  output : List OutputLine
deriving DecidableEq

def Trace.append (t u : Trace) : Trace :=
  ⟨t.fetched ++ u.fetched, t.classified ++ u.classified,
   t.output ++ u.output⟩

/-- The body of the loop of gumshoe.py lines 97-121 for one sampled
object: print Checking, fetch and decode, classify (lines 100-102:
a none response means empty content and the iteration is skipped),
filter, then either report the findings with the preview block and a
blank line, or report no PII (Python if labels: is false both for None
and for the empty list). -/
def processObject (display_lines : Int) (env : Env)
    (bucket_name object_name : String) : Trace :=
  let content_str := read_s3_object_content (env.fetch object_name)
  let r := check_for_pii_using_aws_comprehend env.classify bucket_name
    object_name content_str
  let base : Trace := ⟨[object_name], r.2.1,
    OutputLine.checking bucket_name object_name :: r.2.2⟩
  match r.1 with
  | none => base
  | some resp =>
    match process_pii_entities resp object_name with
    | some (l :: ls) =>
      { base with output := base.output ++
          (OutputLine.piiFound bucket_name object_name ::
            ((l :: ls).map fun lb => OutputLine.finding lb.Name lb.Score))
          ++ previewOutput display_lines bucket_name object_name content_str
          ++ [OutputLine.blank] }
    | _ =>
      { base with output := base.output ++
          [OutputLine.noPii bucket_name object_name] }

/-- gumshoe.py lines 90-121, inspect_bucket: print the header, sample
the listing, then process each sampled object in order. -/
def inspect_bucket (display_lines : Int) (env : Env) (bucket_name : String)
    (seed : List Nat) : Trace :=
  let sr := sample_s3_bucket_contents env.listing bucket_name seed
  (sr.1.map (processObject display_lines env bucket_name)).foldl
    Trace.append ⟨[], [], OutputLine.inspecting bucket_name :: sr.2⟩

theorem utf8Encode_replicate_length (n c : Nat) :
    (utf8Encode (List.replicate n c)).length
      = n * (utf8EncodeChar c).length := by
  induction n with
  | zero => simp [utf8Encode]
  | succ m ih =>
    rw [List.replicate_succ, utf8Encode_cons, List.length_append, ih]
    ring

/-- Claim C2 fails on the code: line 74 truncates to 90000 characters
(the comment on line 73 calls this a good buffer for the 100000 byte
limit), but a character encodes to up to four utf-8 bytes, so for text
longer than the bound made of multi-byte characters the submitted
payload far exceeds the ceiling.  This theorem evaluates the embedded
code at 90001 copies of the euro sign (three utf-8 bytes each): the
payload is the 90000-character prefix, whose encoding is 270000 bytes,
above the 100000-byte ceiling. -/
theorem c2_payload_exceeds_byte_ceiling_failing_input :
    (check_for_pii_using_aws_comprehend (fun _ => ⟨none⟩) "bkt" "key"
          (List.replicate 90001 8364)).2.1
        = [List.replicate 90000 8364]
      ∧ 90000 < (List.replicate 90001 8364 : List Nat).length
      ∧ (utf8Encode (List.replicate 90000 8364)).length = 270000
      ∧ 100000 < 270000 := by
  have hne : (List.replicate 90001 8364 : List Nat) ≠ [] := by
    intro hc
    have h2 := congrArg List.length hc
    rw [List.length_replicate] at h2
    simp only [List.length_nil] at h2
    omega
  refine ⟨?_, by rw [List.length_replicate]; omega, ?_, by norm_num⟩
  · unfold check_for_pii_using_aws_comprehend
    rw [if_neg hne, List.take_replicate]
    norm_num
  · rw [utf8Encode_replicate_length]
    norm_num [utf8EncodeChar]

/-- Claim C3 fails on the code: the preview slice on gumshoe.py line
115 is content_lines with the literal 10, not self.display_lines, so
with a configured preview line count of 3 and four-line content the
code prints all four lines (the header still announcing 3).  This
theorem evaluates the embedded preview block at that failing input. -/
theorem c3_preview_ignores_line_count_failing_input :
    previewOutput 3 "bkt" "key" [97, 10, 98, 10, 99, 10, 100]
      = [OutputLine.previewHeader 3 "bkt" "key",
         OutputLine.previewLine 1 [97], OutputLine.previewLine 2 [98],
         OutputLine.previewLine 3 [99],
         OutputLine.previewLine 4 [100]] := by
  rfl

/-- Claim C7: on empty decoded text the classifier client
short-circuits -- no findings, no payload submitted to the service,
the object reported as empty -- and the orchestrator then skips the
rest of the iteration for that object. -/
theorem c7_empty_content_short_circuits
    (classify : List Nat → ComprehendResponse)
    (bucket_name object_name : String) :
    check_for_pii_using_aws_comprehend classify bucket_name object_name []
        = (none, [],
            [OutputLine.emptyContent bucket_name object_name])
      ∧ ∀ (display_lines : Int) (env : Env),
          read_s3_object_content (env.fetch object_name) = [] →
          processObject display_lines env bucket_name object_name
            = ⟨[object_name], [],
               [OutputLine.checking bucket_name object_name,
                OutputLine.emptyContent bucket_name object_name]⟩ := by
  refine ⟨rfl, ?_⟩
  intro display_lines env h
  unfold processObject
  rw [h]
  rfl

/-- Witness for C7 at a concrete environment whose object content is
empty. -/
theorem c7_empty_content_short_circuits_witness :
    processObject 10 (Env.mk (some ["key"]) (fun _ => [])
          (fun _ => ⟨none⟩)) "bkt" "key"
      = ⟨["key"], [],
         [OutputLine.checking "bkt" "key",
          OutputLine.emptyContent "bkt" "key"]⟩ :=
  (c7_empty_content_short_circuits (fun _ => ⟨none⟩) "bkt" "key").2 10
    (Env.mk (some ["key"]) (fun _ => []) (fun _ => ⟨none⟩)) (by rfl)

/-- Claim C8: when the listing has no objects, sampling yields the
empty sequence, an informational message is printed, and inspecting
the bucket is a no-op: no fetches, no classification calls, only the
header and the message. -/
theorem c8_empty_listing_is_noop (display_lines : Int) (env : Env)
    (bucket_name : String) (seed : List Nat)
    (h : env.listing = none) :
    sample_s3_bucket_contents env.listing bucket_name seed
        = ([], [OutputLine.emptyOrInaccessible bucket_name])
      ∧ inspect_bucket display_lines env bucket_name seed
        = ⟨[], [],
           [OutputLine.inspecting bucket_name,
            OutputLine.emptyOrInaccessible bucket_name]⟩ := by
  constructor
  · rw [h]
    rfl
  · unfold inspect_bucket
    rw [h]
    rfl

/-- Witness for C8 at a concrete environment with an empty listing. -/
theorem c8_empty_listing_is_noop_witness :
    inspect_bucket 10 (Env.mk none (fun _ => []) (fun _ => ⟨none⟩))
        "bkt" [0]
      = ⟨[], [],
         [OutputLine.inspecting "bkt",
          OutputLine.emptyOrInaccessible "bkt"]⟩ :=
  (c8_empty_listing_is_noop 10
    (Env.mk none (fun _ => []) (fun _ => ⟨none⟩)) "bkt" [0] (by rfl)).2

/-- Claim C10: a classifier response without a Labels key makes
process_pii_entities return none (not a failure), the orchestrator
reports No PII entities found for the object, and the resulting trace
is identical to the one produced for a response whose Labels list is
empty -- a label-less response is indistinguishable at the output from
a genuinely clean object. -/
theorem c10_label_less_response_reports_no_pii (display_lines : Int)
    (env : Env) (bucket_name object_name : String)
    (hne : read_s3_object_content (env.fetch object_name) ≠ [])
    (hresp : env.classify
        ((read_s3_object_content (env.fetch object_name)).take 90000)
      = ⟨none⟩) :
    process_pii_entities ⟨none⟩ object_name = none
      ∧ processObject display_lines env bucket_name object_name
        = ⟨[object_name],
           [(read_s3_object_content (env.fetch object_name)).take 90000],
           [OutputLine.checking bucket_name object_name,
            OutputLine.noPii bucket_name object_name]⟩
      ∧ ∀ env2 : Env, env2.fetch object_name = env.fetch object_name →
          env2.classify
              ((read_s3_object_content (env.fetch object_name)).take 90000)
            = ⟨some []⟩ →
          processObject display_lines env2 bucket_name object_name
            = processObject display_lines env bucket_name object_name := by
  have hmain : processObject display_lines env bucket_name object_name
      = ⟨[object_name],
         [(read_s3_object_content (env.fetch object_name)).take 90000],
         [OutputLine.checking bucket_name object_name,
          OutputLine.noPii bucket_name object_name]⟩ := by
    unfold processObject check_for_pii_using_aws_comprehend
    simp only [if_neg hne, hresp]
    rfl
  refine ⟨rfl, hmain, ?_⟩
  intro env2 hf hc
  rw [hmain]
  unfold processObject check_for_pii_using_aws_comprehend
  simp only [hf, if_neg hne, hc]
  rfl

/-- Witness for C10 at a concrete environment: one non-empty object
and a classifier answering without a Labels key. -/
theorem c10_label_less_response_reports_no_pii_witness :
    processObject 10 (Env.mk (some ["key"]) (fun _ => [97])
          (fun _ => ⟨none⟩)) "bkt" "key"
      = ⟨["key"], [[97]],
         [OutputLine.checking "bkt" "key",
          OutputLine.noPii "bkt" "key"]⟩ :=
  ((c10_label_less_response_reports_no_pii 10
    (Env.mk (some ["key"]) (fun _ => [97]) (fun _ => ⟨none⟩))
    "bkt" "key" (by decide) (by rfl)).2.1)

end Gumshoe
